import Mathlib

/-!
Verification of a document-to-annotation pipeline (two Python source files,
`main.py` and `extract.py`) against its natural-language specification.

The pipeline extracts plain text from PDF / DOCX / DOC / TXT files and runs a
pretrained seq2seq model to produce a short, word-count-bounded title.  The
external collaborators (PDF and DOCX parsing libraries, the model and its
tokenizer, the file system, external command-line converters) are modelled as
oracle inputs; every piece of logic belonging to the repository itself
(extension dispatch, encoding fallback, parameter derivation, post-processing
of the decoded model output, batch folder processing) is embedded as an
executable Lean function, faithfully following the source.

Strings are modelled as `List Char`.  Python `str.split()` (whitespace
splitting that drops empty tokens), `str.strip()`, `str.rstrip('. ')`,
`str.split('.')`, `'sep'.join(...)`, `str.replace(a, b)` and slicing
`s[:n]` are each given a direct executable model below.
-/

/-- Strings of the embedded program: lists of characters. -/
abbrev Str := List Char

/-- Whitespace test used by the models of Python `str.split()` / `str.strip()`.
Covers space, tab, carriage return and newline. -/
def isWS (c : Char) : Bool := c.isWhitespace

/-- Characters that belong to a whitespace-delimited token. -/
def isTokenChar (c : Char) : Bool := !(isWS c)

/-- Fuel-driven worker for the model of Python `str.split()`:
splits on runs of whitespace, producing the list of (non-empty) tokens.
The fuel argument makes the recursion structural, so that the function
reduces inside the kernel; `words` below instantiates the fuel with the
length of the input, which is always sufficient. -/
def wordsF : Nat → Str → List Str
  | 0, _ => []
  | _ + 1, [] => []
  | n + 1, c :: cs =>
    if isWS c then wordsF n cs
    else (c :: cs.takeWhile isTokenChar) :: wordsF n (cs.dropWhile isTokenChar)

/-- Model of Python `str.split()`: whitespace-delimited tokens of a string. -/
def words (s : Str) : List Str := wordsF s.length s

/-- Model of Python `str.rstrip()` restricted to a character test: drop the
longest suffix of characters satisfying `p`. -/
def rdropWhile (p : Char → Bool) (s : Str) : Str := (s.reverse.dropWhile p).reverse

/-- Model of Python `str.strip()`: remove leading and trailing whitespace. -/
def pyStrip (s : Str) : Str := rdropWhile isWS (s.dropWhile isWS)

/-- Model of Python `'sep'.join(parts)`. -/
def joinSep (sep : Str) : List Str → Str
  | [] => []
  | [t] => t
  | t :: ts => t ++ sep ++ joinSep sep ts

/-- Model of Python `str.split('.')`: split on every dot, keeping empty
fragments; the result is always non-empty. -/
def splitOnDot : Str → List Str
  | [] => [[]]
  | c :: cs =>
    if c = '.' then [] :: splitOnDot cs
    else
      match splitOnDot cs with
      | [] => [[c]]
      | t :: ts => (c :: t) :: ts

/-- Model of Python slicing `l[:n]` with an integer bound: a non-negative
bound keeps the first `n` elements, a negative bound drops `-n` elements
from the end. -/
def pySliceTake {α : Type} (l : List α) (n : Int) : List α :=
  if 0 ≤ n then l.take n.toNat else l.take (l.length - n.natAbs)

/-- Fuel-driven worker for the model of Python `str.replace(pat, rep)`:
replaces every non-overlapping occurrence of `pat`, scanning left to right.
The fuel (instantiated with the length of the string) makes the recursion
structural. -/
def pyReplaceF (pat rep : Str) : Nat → Str → Str
  | 0, s => s
  | _ + 1, [] => []
  | n + 1, c :: cs =>
    if pat ≠ [] ∧ pat.isPrefixOf (c :: cs) then
      rep ++ pyReplaceF pat rep n ((c :: cs).drop pat.length)
    else
      c :: pyReplaceF pat rep n cs

/-- Model of Python `s.replace(pat, rep)` for a non-empty pattern. -/
def pyReplace (s pat rep : Str) : Str := pyReplaceF pat rep s.length s

-- ===== main.py, generate_annotation: parameter derivation (lines 144-156) =====

/-- Embeds `main.py` lines 145-156: the tiered derivation of
`(max_length, length_penalty)` from `max_words`.  The float literals 1.2,
1.0, 0.9, 0.8 are represented exactly as rationals. -/
def derive_params (max_words : Int) : Int × ℚ :=
  if max_words ≤ 15 then (40, 12 / 10)
  else if max_words ≤ 25 then (55, 1)
  else if max_words ≤ 35 then (70, 9 / 10)
  else (85, 8 / 10)

/-- Embeds `main.py` line 171: `min_length = max(15, int(max_words * 0.3))`.
Python `int()` truncates toward zero; for every integer of practical
magnitude the double-precision product `max_words * 0.3` truncates to the
same integer as the exact rational `3 * max_words / 10`, so the model uses
exact arithmetic with truncating division. -/
def min_length (max_words : Int) : Int := max 15 ((3 * max_words).tdiv 10)

/-- The formula stated by the specification for the minimum output length:
`max(15, round(0.3 × max_words))` with rounding to the nearest integer.
Written from the wording of the spec, to be compared with `min_length`. -/
def min_length_spec (max_words : Int) : Int :=
  max 15 (round ((3 * max_words : ℚ) / 10))

-- ===== main.py, generate_annotation: post-processing (lines 183-200) =====

/-- Embeds `main.py` lines 183-190: sentence-boundary truncation of the
decoded title.  Split on dots; when there are at least two fragments, keep
the first stripped fragment when it has at least five words, otherwise keep
the first two fragments joined by `". "` when their combined word count does
not exceed `max_words`. -/
def truncate_sentences (title : Str) (max_words : Int) : Str :=
  let sentences := splitOnDot title
  if 1 < sentences.length then
    if 5 ≤ (words (pyStrip sentences.headI)).length then pyStrip sentences.headI
    else if ((words (pyStrip (joinSep (". ".data) (sentences.take 2)))).length : Int)
        ≤ max_words then
      pyStrip (joinSep (". ".data) (sentences.take 2))
    else title
  else title

/-- Embeds `main.py` lines 183-193: sentence truncation followed by
`title.rstrip('. ')`. -/
def clean_title (title : Str) (max_words : Int) : Str :=
  rdropWhile (fun c => c == '.' || c == ' ') (truncate_sentences title max_words)

/-- Embeds `main.py` lines 196-198: hard truncation of the title to the
first `max_words` whitespace-delimited tokens. -/
def hard_truncate (t : Str) (max_words : Int) : Str :=
  if max_words < ((words t).length : Int) then
    joinSep ([' ']) (pySliceTake (words t) max_words)
  else t

/-- Embeds `main.py` lines 183-200: the full post-processing applied to the
decoded, prefix-stripped model output, ending with the final `.strip()` of
line 200. -/
def postProcess (title : Str) (max_words : Int) : Str :=
  pyStrip (hard_truncate (clean_title title max_words) max_words)

-- ===== main.py, generate_annotation (lines 123-204) =====

/-- Outcome of an embedded Python computation: a returned value or a raised
exception carrying a message. -/
inductive PyResult (α : Type) where
  | ok (a : α)
  | exc (msg : Str)

/-- Model of a Python try/except block with a catch-all handler. -/
def pyTry {α : Type} (body : PyResult α) (handler : Str → α) : α :=
  match body with
  | .ok a => a
  | .exc m => handler m

/-- Oracle for the external model and tokenizer consumed by
`generate_annotation` in `main.py`: `load` models
`T5Tokenizer.from_pretrained` and `T5ForConditionalGeneration.from_pretrained`
(which may raise), and `generate` models tokenization, `model.generate` and
`tokenizer.decode` as one fallible step receiving `max_length`,
`length_penalty`, `min_length` and the prompt, and returning the decoded
output string. -/
structure GenEnv where
  load : PyResult Unit
  generate : Int → ℚ → Int → Str → PyResult Str

/-- The fixed "no text" sentinel returned by `main.py` line 136. -/
def noTextMsg : Str := "Текст не найден".data

/-- The fixed "generation error" sentinel returned by `main.py` line 204. -/
def genErrorMsg : Str := "Ошибка генерации".data

/-- Embeds `main.py` lines 180-181: strip the two instructional prefix
variants from the decoded output, then strip surrounding whitespace. -/
def title_of (decoded : Str) : Str :=
  pyStrip (pyReplace (pyReplace decoded ("Заголовок документа:".data) [])
    ("Заголовок:".data) [])

/-- Embeds `main.py` lines 159-163: the context is the first
`min(500 + 10 * max_words, 1000)` characters of the text, and the prompt
prepends the fixed instructional prefix. -/
def annotation_prompt (text : Str) (max_words : Int) : Str :=
  "Заголовок документа: ".data ++ pySliceTake text (min (500 + max_words * 10) 1000)

/-- Embeds `main.py` lines 123-204, `generate_annotation`: empty or
whitespace-only text short-circuits to the "no text" sentinel; a raising
model load or generation step is caught and mapped to the "generation
error" sentinel; otherwise the decoded output is prefix-stripped and
post-processed. -/
def generate_annotation (env : GenEnv) (text : Str) (max_words : Int) : Str :=
  if text = [] ∨ pyStrip text = [] then noTextMsg
  else
    match env.load with
    | .exc _ => genErrorMsg
    | .ok _ =>
      match env.generate (derive_params max_words).1 (derive_params max_words).2
          (min_length max_words) (annotation_prompt text max_words) with
      | .exc _ => genErrorMsg
      | .ok decoded => postProcess (title_of decoded) max_words

/-- Fixed oracle used by witnesses: loading succeeds and generation always
decodes to the four-token string `"a b c d"`. -/
def genEnvW : GenEnv :=
  { load := PyResult.ok ()
    generate := fun _ _ _ _ => PyResult.ok ("a b c d".data) }

-- ===== extract.py: path handling =====

/-- Model of `pathlib.Path(p).name`: the part of the path after the last
slash. -/
def pyBasename (p : Str) : Str := (p.reverse.takeWhile (fun c => !(c == '/'))).reverse

/-- Model of `pathlib.Path(p).suffix`: the extension of the final path
component, taken from its last dot; empty when the name has no dot, when
the last dot is the leading character of the name, or when the last dot is
the final character. -/
def pathSuffix (p : Str) : Str :=
  let name := pyBasename p
  let tail := name.reverse.takeWhile (fun c => !(c == '.'))
  if tail.length = name.length then []
  else if tail.length = 0 then []
  else if tail.length = name.length - 1 then []
  else '.' :: tail.reverse

/-- Model of Python `str.lower()` on extension strings. -/
def lowerStr (s : Str) : Str := s.map Char.toLower

/-- Model of Python `str.upper()` on extension strings. -/
def upperStr (s : Str) : Str := s.map Char.toUpper

/-- The supported extension list of `extract.py` (dispatch at lines 21-28
and the batch glob list at line 260). -/
def supported_extensions : List Str :=
  [".pdf".data, ".docx".data, ".doc".data, ".txt".data]

-- ===== extract.py: the four format extractors =====

/-- Embeds `extract.py` lines 43-66 without the outer catch-all:
`pdfplumber.open` either raises (oracle value `exc`) or yields the pages,
each carrying the result of `page.extract_text()` (`none` models a page
returning None).  Truthy page texts are collected in page order and joined
by blank lines; pages without text contribute nothing. -/
def extract_text_from_pdf_body (pages : PyResult (List (Option Str))) :
    PyResult (Option Str) :=
  match pages with
  | .exc m => PyResult.exc m
  | .ok ps =>
    PyResult.ok (some (joinSep ("\n\n".data)
      (ps.filterMap (fun pt =>
        match pt with
        | some t => if t = [] then none else some t
        | none => none))))

/-- Embeds `extract.py` lines 43-66: the public PDF extractor; its
try/except maps any raised exception to None. -/
def extract_text_from_pdf (pages : PyResult (List (Option Str))) : Option Str :=
  pyTry (extract_text_from_pdf_body pages) (fun _ => none)

/-- Document content yielded by the python-docx oracle: the ordered
paragraph texts, and the tables as ordered rows of ordered cell texts. -/
structure DocxContent where
  paragraphs : List Str
  tables : List (List (List Str))

/-- Embeds `extract.py` lines 74-99 without the outer catch-all: paragraphs
whose stripped text is non-empty, followed by table cells (table order, row
order, cell order) whose stripped text is non-empty, joined by blank
lines. -/
def extract_text_from_docx_body (doc : PyResult DocxContent) :
    PyResult (Option Str) :=
  match doc with
  | .exc m => PyResult.exc m
  | .ok d =>
    PyResult.ok (some (joinSep ("\n\n".data)
      (d.paragraphs.filter (fun p => !(pyStrip p).isEmpty) ++
        (d.tables.map (fun tb =>
          (tb.map (fun row =>
            row.filter (fun cell => !(pyStrip cell).isEmpty))).flatten)).flatten)))

/-- Embeds `extract.py` lines 74-99: the public DOCX extractor; its
try/except maps any raised exception to None. -/
def extract_text_from_docx (doc : PyResult DocxContent) : Option Str :=
  pyTry (extract_text_from_docx_body doc) (fun _ => none)

/-- Oracle for the external tools used by the legacy-DOC extractor:
`antiword` is `none` when the tool is absent (its invocation raises
FileNotFoundError, caught at line 122), otherwise the pair of return code
and standard output of the run; `libre` is whether the office-suite
converter can be invoked (when it is absent the subprocess call raises and
the inner except at line 142 absorbs the error); `fs` is the file system
visible at the `os.path.exists` check after the conversion attempt,
mapping a path to the content readable there. -/
structure DocEnv where
  antiword : Option (Int × Str)
  libre : Bool
  fs : Str → Option Str

/-- Embeds `extract.py` lines 126-143, the LibreOffice fallback branch of
the DOC extractor.  Note the path actually consulted: line 135 computes
`doc_path.replace('.doc', '.txt')`, a path alongside the source file, not
the conversion output directory; when a file exists there it is read
(errors=ignore, so the read cannot raise) and removed, otherwise the branch
falls through and line 146 returns None. -/
def doc_libre_fallback (env : DocEnv) (doc_path : Str) : Option Str :=
  if env.libre then
    match env.fs (pyReplace doc_path (".doc".data) (".txt".data)) with
    | some text => some text
    | none => none
  else none

/-- Embeds `extract.py` lines 104-150, the legacy-DOC extractor: antiword
first (absent tool or non-zero exit code falls through), then the
LibreOffice conversion branch, then None. -/
def extract_text_from_doc (env : DocEnv) (doc_path : Str) : Option Str :=
  match env.antiword with
  | some res => if res.1 = 0 then some res.2 else doc_libre_fallback env doc_path
  | none => doc_libre_fallback env doc_path

/-- Stem of a file name: the name without its `pathSuffix`. -/
def pyStem (name : Str) : Str := name.take (name.length - (pathSuffix name).length)

/-- Modelled from the spec: the external office-suite converter transforms
the file "to plain text in a temporary location"; invoked with
`--outdir os.path.dirname(tmp_path)` its output lands in the directory of
the temporary file, named after the source file stem with a `.txt`
extension. -/
def libreConvertTarget (tmpdir doc_path : Str) : Str :=
  tmpdir ++ '/' :: (pyStem (pyBasename doc_path) ++ (".txt".data))

/-- The character encodings tried in order by the TXT extractor
(`extract.py` line 161). -/
inductive TxtEncoding where
  | utf8
  | cp1251
  | koi8r
  | iso8859
deriving DecidableEq

/-- The ordered encoding attempt list of `extract.py` line 161. -/
def txt_encodings : List TxtEncoding :=
  [TxtEncoding.utf8, TxtEncoding.cp1251, TxtEncoding.koi8r, TxtEncoding.iso8859]

/-- Oracle for the TXT extractor: `readable` is whether opening and reading
the file succeeds at all (false models an OSError that the outer catch-all
turns into None); `decode` is the codec behaviour on the file bytes
(`none` models a UnicodeDecodeError for that encoding); `lossy` is the text
produced by the final errors=ignore read, which cannot fail. -/
structure TxtEnv where
  readable : Bool
  decode : TxtEncoding → Option Str
  lossy : Str

/-- First successful decode in the ordered attempt list (the loop of
`extract.py` lines 163-170, where a UnicodeDecodeError is caught and the
next encoding is tried). -/
def firstDecode (dec : TxtEncoding → Option Str) : List TxtEncoding → Option Str
  | [] => none
  | e :: es =>
    match dec e with
    | some t => some t
    | none => firstDecode dec es

/-- Embeds `extract.py` lines 155-180 without the outer catch-all: an
unreadable file raises; otherwise the encodings are tried in order and the
lossy errors=ignore read is the final fallback. -/
def extract_text_from_txt_body (env : TxtEnv) : PyResult (Option Str) :=
  if env.readable then
    PyResult.ok (some (match firstDecode env.decode txt_encodings with
      | some t => t
      | none => env.lossy))
  else PyResult.exc ("OSError".data)

/-- Embeds `extract.py` lines 155-180: the public TXT extractor; its
try/except maps any raised exception to None. -/
def extract_text_from_txt (env : TxtEnv) : Option Str :=
  pyTry (extract_text_from_txt_body env) (fun _ => none)

-- ===== extract.py: extension dispatch (lines 8-35) =====

/-- Oracle bundle for one file: the behaviour of each external parser on
that file. -/
structure ExtractEnv where
  pdf : PyResult (List (Option Str))
  docx : PyResult DocxContent
  doc : DocEnv
  txt : TxtEnv

/-- Embeds `extract.py` lines 18-31 without the outer catch-all: dispatch
on the lower-cased path suffix.  The sub-extractors carry their own
catch-all handlers, so every branch produces a value rather than an
exception. -/
def extract_text_from_file_body (env : ExtractEnv) (path : Str) :
    PyResult (Option Str) :=
  let ext := lowerStr (pathSuffix path)
  if ext = (".pdf".data) then PyResult.ok (extract_text_from_pdf env.pdf)
  else if ext = (".docx".data) then PyResult.ok (extract_text_from_docx env.docx)
  else if ext = (".doc".data) then PyResult.ok (extract_text_from_doc env.doc path)
  else if ext = (".txt".data) then PyResult.ok (extract_text_from_txt env.txt)
  else PyResult.ok none

/-- Embeds `extract.py` lines 8-35, extract_text_from_file: the dispatch
wrapped in the outer try/except that maps any raised exception to None. -/
def extract_text_from_file (env : ExtractEnv) (path : Str) : Option Str :=
  pyTry (extract_text_from_file_body env path) (fun _ => none)

/-- Trivial oracle bundle used by witnesses. -/
def extractEnvW : ExtractEnv :=
  { pdf := PyResult.ok []
    docx := PyResult.ok ⟨[], []⟩
    doc := { antiword := none, libre := false, fs := fun _ => none }
    txt := { readable := false, decode := fun _ => none, lossy := [] } }

/-- TXT oracle used by the C7 witness: UTF-8 decoding fails, cp1251
succeeds. -/
def txtEnvW : TxtEnv :=
  { readable := true
    decode := fun e =>
      match e with
      | TxtEncoding.cp1251 => some ("Отчёт".data)
      | _ => none
    lossy := [] }

/-- Concrete scenario for C9: antiword is absent, LibreOffice is present,
the document lives in `/docs`, the temporary file lives in `/tmp`, and the
file system contains exactly the conversion output that LibreOffice wrote
into the temporary directory. -/
def docBugEnv : DocEnv :=
  { antiword := none
    libre := true
    fs := fun p =>
      if p = libreConvertTarget ("/tmp".data) ("/docs/report.doc".data) then
        some ("Converted report text".data)
      else none }

-- ===== extract.py: generate_title_from_file (lines 189-245) =====

/-- Embeds `extract.py` lines 229-241: post-processing of the decoded model
output in the title-only pipeline.  Strip the two instructional prefix
variants and surrounding whitespace; when the title contains a dot keep
only the first dot-fragment, stripped; cap at 25 whitespace-delimited
words; strip. -/
def clean_title_simple (decoded : Str) : Str :=
  let t0 := pyStrip (pyReplace (pyReplace decoded ("Заголовок документа:".data) [])
    ("Заголовок:".data) [])
  let t1 := if t0.contains '.' then pyStrip (splitOnDot t0).headI else t0
  let t2 := if 25 < (words t1).length then joinSep ([' ']) ((words t1).take 25) else t1
  pyStrip t2

/-- Oracle inputs for one file processed by `generate_title_from_file`: the
extraction oracles for that file, plus the model pipeline (load, tokenize,
generate, decode) as one fallible function of the prompt. -/
structure TitleEnv where
  extract : ExtractEnv
  gen : Str → PyResult Str

/-- Embeds `extract.py` lines 189-245, generate_title_from_file: extract
the text (a None or empty result aborts with None), build the prompt from
the first 600 characters, run the model (a raising load or generation is
caught and mapped to None), and post-process the decoded output. -/
def generate_title_from_file (env : TitleEnv) (path : Str) : Option Str :=
  match extract_text_from_file env.extract path with
  | none => none
  | some text =>
    if text = [] then none
    else
      match env.gen ("Заголовок документа: ".data ++ text.take 600) with
      | .exc _ => none
      | .ok decoded => some (clean_title_simple decoded)

-- ===== extract.py: process_folder (lines 250-298) =====

/-- Embeds `extract.py` lines 262-266: the glob pass collecting, for each
supported extension in order, the directory entries matching the
lower-case pattern and then the upper-case pattern. -/
def globFiles (listing : List Str) : List Str :=
  (supported_extensions.map (fun ext =>
    listing.filter (fun f => ext.isSuffixOf f) ++
      listing.filter (fun f => (upperStr ext).isSuffixOf f))).flatten

/-- The per-file record appended to the batch results
(`extract.py` lines 278-284). -/
structure BatchRecord where
  filename : Str
  title : Str
  path : Str
  processed_at : Str
  word_count : Nat
deriving DecidableEq

/-- Embeds `extract.py` lines 270-290, the per-file step of the batch loop:
a truthy title produces a record; a None or empty title produces no entry
of any kind. -/
def record_of (envOf : Str → TitleEnv) (now : Str) (f : Str) : Option BatchRecord :=
  match generate_title_from_file (envOf f) f with
  | some title =>
    if title = [] then none
    else some { filename := pyBasename f, title := title, path := f,
                processed_at := now, word_count := (words title).length }
  | none => none

/-- Embeds `extract.py` lines 250-298, process_folder: process every
globbed file in order, collecting records for truthy titles, then write
the results to `output_file` only when both the output name and the
results list are truthy.  The write effect (target path and written
records) is returned alongside the results list; `none` means no file is
written. -/
def process_folder (envOf : Str → TitleEnv) (listing : List Str) (now : Str)
    (output_file : Option Str) : List BatchRecord × Option (Str × List BatchRecord) :=
  let results := (globFiles listing).filterMap (record_of envOf now)
  let save :=
    match output_file with
    | some fname => if fname ≠ [] ∧ results ≠ [] then some (fname, results) else none
    | none => none
  (results, save)

/-- Python truthiness of an optional string: None and the empty string are
falsy. -/
def pyTruthyOpt (o : Option Str) : Bool :=
  match o with
  | none => false
  | some s => !s.isEmpty

/-- Single-file environment for the C10 witness: the lone TXT file is
unreadable, so no title is produced. -/
def titleEnvFailW : TitleEnv :=
  { extract := extractEnvW
    gen := fun _ => PyResult.exc ("error".data) }

/-- Extraction oracle for the C8 witness TXT file: readable, UTF-8
decodes. -/
def txtGoodEnvW : TitleEnv :=
  { extract :=
      { pdf := PyResult.ok []
        docx := PyResult.ok ⟨[], []⟩
        doc := { antiword := none, libre := false, fs := fun _ => none }
        txt := { readable := true
                 decode := fun e =>
                   match e with
                   | TxtEncoding.utf8 => some ("Это текст доклада".data)
                   | _ => none
                 lossy := [] } }
    gen := fun _ => PyResult.ok ("Доклад о результатах".data) }

/-- Extraction oracle for the C8 witness PDF file: the PDF parser raises. -/
def pdfBadEnvW : TitleEnv :=
  { extract :=
      { pdf := PyResult.exc ("bad pdf".data)
        docx := PyResult.ok ⟨[], []⟩
        doc := { antiword := none, libre := false, fs := fun _ => none }
        txt := { readable := false, decode := fun _ => none, lossy := [] } }
    gen := fun _ => PyResult.ok ([]) }

/-- Per-path oracle map for the C8 witness. -/
def envOfW (p : Str) : TitleEnv :=
  if p = ("/d/a.txt".data) then txtGoodEnvW else pdfBadEnvW

-- ===== Theorems: helper lemmas, then the claims C1-C10 =====

theorem dropWhile_length_le (p : Char → Bool) :
    ∀ l : Str, (l.dropWhile p).length ≤ l.length := by
  intro l
  induction l with
  | nil => simp
  | cons c cs ih =>
    by_cases h : p c
    · simp only [List.dropWhile_cons, h, if_true]
      exact Nat.le_succ_of_le ih
    · simp [List.dropWhile_cons, h]

theorem wordsF_congr :
    ∀ n m (l : Str), l.length ≤ n → l.length ≤ m → wordsF n l = wordsF m l := by
  intro n
  induction n with
  | zero =>
    intro m l h1 _
    have hl : l = [] := List.length_eq_zero.mp (Nat.le_zero.mp h1)
    subst hl
    cases m <;> rfl
  | succ n ih =>
    intro m l h1 h2
    cases l with
    | nil => cases m <;> rfl
    | cons c cs =>
      cases m with
      | zero => simp at h2
      | succ m =>
        simp only [List.length_cons, Nat.succ_le_succ_iff] at h1 h2
        cases h : isWS c with
        | true =>
          simp only [wordsF, h, if_true]
          exact ih m cs h1 h2
        | false =>
          simp only [wordsF, h, Bool.false_eq_true, if_false]
          have hd := dropWhile_length_le isTokenChar cs
          rw [ih m (cs.dropWhile isTokenChar) (le_trans hd h1) (le_trans hd h2)]

theorem wordsF_eq_words (n : Nat) (l : Str) (h : l.length ≤ n) :
    wordsF n l = words l :=
  wordsF_congr n l.length l h (le_refl _)

theorem words_nil : words [] = [] := rfl

theorem words_cons_ws (c : Char) (cs : Str) (h : isWS c = true) :
    words (c :: cs) = words cs := by
  show wordsF (cs.length + 1) (c :: cs) = words cs
  simp only [wordsF, h, if_true]
  exact wordsF_eq_words cs.length cs (le_refl _)

theorem words_cons_token (c : Char) (cs : Str) (h : isWS c = false) :
    words (c :: cs) =
      (c :: cs.takeWhile isTokenChar) :: words (cs.dropWhile isTokenChar) := by
  show wordsF (cs.length + 1) (c :: cs) = _
  simp only [wordsF, h, if_false, Bool.false_eq_true]
  rw [wordsF_eq_words cs.length _ (dropWhile_length_le isTokenChar cs)]

theorem words_all_ws : ∀ w : Str, (∀ c ∈ w, isWS c = true) → words w = [] := by
  intro w
  induction w with
  | nil => intro _; rfl
  | cons c cs ih =>
    intro h
    rw [words_cons_ws c cs (h c (List.mem_cons_self c cs))]
    exact ih (fun x hx => h x (List.mem_cons_of_mem c hx))

theorem words_token_cons (t : Str) (d : Char) (r : Str)
    (ht : t ≠ []) (hnw : ∀ c ∈ t, isWS c = false) (hd : isWS d = true) :
    words (t ++ d :: r) = t :: words r := by
  cases t with
  | nil => exact absurd rfl ht
  | cons c cs =>
    have hc : isWS c = false := hnw c (List.mem_cons_self c cs)
    have hcs : ∀ x ∈ cs, isTokenChar x = true := by
      intro x hx
      simp [isTokenChar, hnw x (List.mem_cons_of_mem c hx)]
    rw [List.cons_append, words_cons_token c (cs ++ d :: r) hc]
    have htake : (cs ++ d :: r).takeWhile isTokenChar = cs := by
      rw [List.takeWhile_append,
        if_pos (by rw [List.takeWhile_eq_self_iff.mpr hcs])]
      simp [List.takeWhile_cons, isTokenChar, hd]
    have hdrop : (cs ++ d :: r).dropWhile isTokenChar = d :: r := by
      rw [List.dropWhile_append]
      rw [List.dropWhile_eq_nil_iff.mpr hcs]
      simp [List.dropWhile_cons, isTokenChar, hd]
    rw [htake, hdrop, words_cons_ws d r hd]

theorem words_single (t : Str) (ht : t ≠ []) (hnw : ∀ c ∈ t, isWS c = false) :
    words t = [t] := by
  cases t with
  | nil => exact absurd rfl ht
  | cons c cs =>
    have hc : isWS c = false := hnw c (List.mem_cons_self c cs)
    have hcs : ∀ x ∈ cs, isTokenChar x = true := by
      intro x hx
      simp [isTokenChar, hnw x (List.mem_cons_of_mem c hx)]
    rw [words_cons_token c cs hc, List.takeWhile_eq_self_iff.mpr hcs,
      List.dropWhile_eq_nil_iff.mpr hcs, words_nil]

/-- Splitting a single-space join of non-empty whitespace-free tokens
recovers exactly those tokens. -/
theorem words_join : ∀ ts : List Str,
    (∀ t ∈ ts, t ≠ [] ∧ ∀ c ∈ t, isWS c = false) →
    words (joinSep ([' ']) ts) = ts := by
  intro ts
  induction ts with
  | nil => intro _; rfl
  | cons t ts ih =>
    intro h
    have ht := h t (List.mem_cons_self t ts)
    cases ts with
    | nil => simpa [joinSep] using words_single t ht.1 ht.2
    | cons u us =>
      have hj : joinSep ([' ']) (t :: u :: us)
          = t ++ ' ' :: joinSep ([' ']) (u :: us) := by
        simp [joinSep]
      rw [hj, words_token_cons t ' ' (joinSep ([' ']) (u :: us)) ht.1 ht.2 (by decide)]
      rw [ih (fun x hx => h x (List.mem_cons_of_mem t hx))]

theorem words_dropWhile_ws : ∀ l : Str, words (l.dropWhile isWS) = words l := by
  intro l
  induction l with
  | nil => rfl
  | cons c cs ih =>
    cases hc : isWS c with
    | true => simp [List.dropWhile_cons, hc, words_cons_ws c cs hc, ih]
    | false => simp [List.dropWhile_cons, hc]

theorem words_append_ws_aux :
    ∀ (n : Nat) (l w : Str), l.length ≤ n → (∀ c ∈ w, isWS c = true) →
      words (l ++ w) = words l := by
  intro n
  induction n with
  | zero =>
    intro l w h1 hw
    have hl : l = [] := List.length_eq_zero.mp (Nat.le_zero.mp h1)
    subst hl
    simpa using words_all_ws w hw
  | succ n ih =>
    intro l w h1 hw
    cases l with
    | nil => simpa using words_all_ws w hw
    | cons c cs =>
      simp only [List.length_cons, Nat.succ_le_succ_iff] at h1
      cases hc : isWS c with
      | true =>
        rw [List.cons_append, words_cons_ws c _ hc, words_cons_ws c cs hc]
        exact ih cs w h1 hw
      | false =>
        rw [List.cons_append, words_cons_token c _ hc, words_cons_token c cs hc]
        by_cases hall : ∀ x ∈ cs, isTokenChar x = true
        · have hwtake : w.takeWhile isTokenChar = [] := by
            cases w with
            | nil => rfl
            | cons d ds =>
              simp [List.takeWhile_cons, isTokenChar, hw d (List.mem_cons_self d ds)]
          have hwdrop : w.dropWhile isTokenChar = w := by
            cases w with
            | nil => rfl
            | cons d ds =>
              simp [List.dropWhile_cons, isTokenChar, hw d (List.mem_cons_self d ds)]
          rw [List.takeWhile_append,
            if_pos (by rw [List.takeWhile_eq_self_iff.mpr hall])]
          rw [List.dropWhile_append,
            if_pos (by rw [List.dropWhile_eq_nil_iff.mpr hall]; rfl)]
          rw [List.takeWhile_eq_self_iff.mpr hall, List.dropWhile_eq_nil_iff.mpr hall,
            hwtake, hwdrop, words_all_ws w hw, words_nil]
          simp
        · have hne : cs.dropWhile isTokenChar ≠ [] := by
            intro hnil
            exact hall (List.dropWhile_eq_nil_iff.mp hnil)
          have hlen : ¬ (cs.takeWhile isTokenChar).length = cs.length := by
            intro hl
            exact hall (List.takeWhile_eq_self_iff.mp
              ((List.takeWhile_prefix _).eq_of_length hl))
          rw [List.takeWhile_append, if_neg hlen]
          rw [List.dropWhile_append, if_neg (by simpa [List.isEmpty_iff] using hne)]
          congr 1
          exact ih (cs.dropWhile isTokenChar) w
            (le_trans (dropWhile_length_le _ cs) h1) hw

theorem words_append_ws (l w : Str) (hw : ∀ c ∈ w, isWS c = true) :
    words (l ++ w) = words l :=
  words_append_ws_aux l.length l w (le_refl _) hw

/-- Stripping leading and trailing whitespace does not change the token
list. -/
theorem words_pyStrip (l : Str) : words (pyStrip l) = words l := by
  unfold pyStrip rdropWhile
  set m := l.dropWhile isWS with hm
  have hdecomp : m = (m.reverse.dropWhile isWS).reverse
      ++ (m.reverse.takeWhile isWS).reverse := by
    conv_lhs =>
      rw [← List.reverse_reverse m,
        ← List.takeWhile_append_dropWhile (p := isWS) (l := m.reverse)]
    rw [List.reverse_append]
  have hws : ∀ c ∈ (m.reverse.takeWhile isWS).reverse, isWS c = true := by
    intro c hc
    exact List.mem_takeWhile_imp (List.mem_reverse.mp hc)
  calc words ((m.reverse.dropWhile isWS).reverse)
      = words ((m.reverse.dropWhile isWS).reverse
          ++ (m.reverse.takeWhile isWS).reverse) := (words_append_ws _ _ hws).symm
    _ = words m := by rw [← hdecomp]
    _ = words l := words_dropWhile_ws l

/-- Every token produced by the word splitter is non-empty and free of
whitespace characters. -/
theorem words_tokens_aux :
    ∀ (n : Nat) (l : Str), l.length ≤ n →
      ∀ t ∈ words l, t ≠ [] ∧ ∀ c ∈ t, isWS c = false := by
  intro n
  induction n with
  | zero =>
    intro l h1 t ht
    have hl : l = [] := List.length_eq_zero.mp (Nat.le_zero.mp h1)
    subst hl
    simp [words_nil] at ht
  | succ n ih =>
    intro l h1 t ht
    cases l with
    | nil => simp [words_nil] at ht
    | cons c cs =>
      simp only [List.length_cons, Nat.succ_le_succ_iff] at h1
      cases hc : isWS c with
      | true =>
        rw [words_cons_ws c cs hc] at ht
        exact ih cs h1 t ht
      | false =>
        rw [words_cons_token c cs hc] at ht
        rcases List.mem_cons.mp ht with h | h
        · subst h
          refine ⟨by simp, ?_⟩
          intro x hx
          rcases List.mem_cons.mp hx with rfl | hx
          · exact hc
          · have hx2 := List.mem_takeWhile_imp hx
            simpa [isTokenChar] using hx2
        · exact ih (cs.dropWhile isTokenChar)
            (le_trans (dropWhile_length_le _ cs) h1) t h

theorem words_tokens (l : Str) :
    ∀ t ∈ words l, t ≠ [] ∧ ∀ c ∈ t, isWS c = false :=
  words_tokens_aux l.length l (le_refl _)

/-- Core word-count bound for the post-processing pipeline: for
`max_words ≥ 1` the result has at most `max_words` tokens, and exactly
`max_words` tokens when the cleaned title (after sentence truncation and
`rstrip`, before the hard cut) is longer than `max_words` tokens. -/
theorem wc_postProcess (title : Str) (mw : Int) (hmw : 1 ≤ mw) :
    ((words (postProcess title mw)).length : Int) ≤ mw ∧
    (mw < ((words (clean_title title mw)).length : Int) →
      ((words (postProcess title mw)).length : Int) = mw) := by
  set ct := clean_title title mw with hct
  by_cases h : mw < ((words ct).length : Int)
  · have h0 : (0 : Int) ≤ mw := by omega
    have hslice : pySliceTake (words ct) mw = (words ct).take mw.toNat := by
      unfold pySliceTake
      rw [if_pos h0]
    have htr : hard_truncate ct mw = joinSep ([' ']) ((words ct).take mw.toNat) := by
      unfold hard_truncate
      rw [if_pos h, hslice]
    have htok : ∀ t ∈ (words ct).take mw.toNat, t ≠ [] ∧ ∀ c ∈ t, isWS c = false :=
      fun t ht => words_tokens ct t (List.take_subset _ _ ht)
    have hwords : words (joinSep ([' ']) ((words ct).take mw.toNat))
        = (words ct).take mw.toNat := words_join _ htok
    have hlen : ((words ct).take mw.toNat).length = mw.toNat := by
      rw [List.length_take]
      omega
    unfold postProcess
    rw [← hct, htr, words_pyStrip, hwords, hlen]
    constructor
    · omega
    · intro _
      omega
  · have htr : hard_truncate ct mw = ct := by
      unfold hard_truncate
      rw [if_neg h]
    unfold postProcess
    rw [← hct, htr, words_pyStrip]
    constructor
    · omega
    · intro hcontra
      exact absurd hcontra h

/-- C4: the parameter-derivation step of `generate_annotation` is exactly the
tiered function of `max_words` given in the specification table:
`max_words ≤ 15` selects `(max_length, length_penalty) = (40, 1.2)`,
`15 < max_words ≤ 25` selects `(55, 1.0)`, `25 < max_words ≤ 35` selects
`(70, 0.9)` and `max_words > 35` selects `(85, 0.8)`; in particular
`max_words = 10` selects `(40, 1.2)` and `max_words = 40` selects
`(85, 0.8)`. -/
theorem derive_params_tiers :
    derive_params 10 = (40, 12 / 10) ∧ derive_params 40 = (85, 8 / 10) ∧
    (∀ mw : Int, mw ≤ 15 → derive_params mw = (40, 12 / 10)) ∧
    (∀ mw : Int, 15 < mw → mw ≤ 25 → derive_params mw = (55, 1)) ∧
    (∀ mw : Int, 25 < mw → mw ≤ 35 → derive_params mw = (70, 9 / 10)) ∧
    (∀ mw : Int, 35 < mw → derive_params mw = (85, 8 / 10)) := by
  have t1 : ∀ mw : Int, mw ≤ 15 → derive_params mw = (40, 12 / 10) := by
    intro mw h
    unfold derive_params
    rw [if_pos h]
  have t2 : ∀ mw : Int, 15 < mw → mw ≤ 25 → derive_params mw = (55, 1) := by
    intro mw h1 h2
    unfold derive_params
    rw [if_neg (by omega), if_pos h2]
  have t3 : ∀ mw : Int, 25 < mw → mw ≤ 35 → derive_params mw = (70, 9 / 10) := by
    intro mw h1 h2
    unfold derive_params
    rw [if_neg (by omega), if_neg (by omega), if_pos h2]
  have t4 : ∀ mw : Int, 35 < mw → derive_params mw = (85, 8 / 10) := by
    intro mw h1
    unfold derive_params
    rw [if_neg (by omega), if_neg (by omega), if_neg (by omega)]
  exact ⟨t1 10 (by decide), t4 40 (by decide), t1, t2, t3, t4⟩

/-- Witness for C4: the tier membership hypotheses are satisfiable; at
`max_words = 12` the first tier applies. -/
theorem derive_params_tiers_witness : derive_params 12 = (40, 12 / 10) :=
  derive_params_tiers.2.2.1 12 (by decide)

/-- C6, counterexample: at `max_words = 59` the code passes
`max(15, int(59 * 0.3)) = max(15, 17) = 17` to generation, while the
specification formula `max(15, round(0.3 × 59)) = max(15, round(17.7)) = 18`
gives 18, so the claimed equality fails. -/
theorem min_length_round_claim_false :
    min_length 59 = 17 ∧ min_length_spec 59 = 18 ∧
    ¬ min_length 59 = min_length_spec 59 := by
  have h1 : min_length 59 = 17 := by decide
  have h2 : min_length_spec 59 = 18 := by
    unfold min_length_spec
    norm_num [round_eq]
  exact ⟨h1, h2, by rw [h1, h2]; decide⟩

/-- C6, amended: for every `max_words ≥ 0`, the minimum output length passed
to generation equals `max(15, ⌊0.3 × max_words⌋)`, the floor (truncation) of
`0.3 × max_words` rather than rounding to the nearest integer. -/
theorem min_length_trunc (mw : Int) (h : 0 ≤ mw) :
    min_length mw = max 15 ⌊(3 * mw : ℚ) / 10⌋ := by
  unfold min_length
  congr 1
  have h1 := Rat.floor_intCast_div_natCast (3 * mw) 10
  push_cast at h1
  rw [h1]
  exact Int.tdiv_eq_ediv (by omega) (by omega)

/-- Witness for C6: the amended statement instantiated at `max_words = 59`. -/
theorem min_length_trunc_witness : min_length 59 = max 15 ⌊(3 * 59 : ℚ) / 10⌋ :=
  min_length_trunc 59 (by decide)

/-- C5, counterexample: on the decoded model output
`"Report on annual results. Summary follows."` with `max_words = 25`, the
sentence-boundary truncation step does not keep only
`"Report on annual results"`: that first fragment has only 4 words, not the
5 required by the first-fragment branch. -/
theorem sentence_trunc_claim_false :
    ¬ truncate_sentences ("Report on annual results. Summary follows.".data) 25
      = ("Report on annual results".data) := by
  decide

/-- C5, amended: the first fragment of
`"Report on annual results. Summary follows."` has only 4 words, so with
`max_words = 25` the truncation step instead keeps the first two fragments
joined by `". "` (their combined word count, 6, is within the bound),
producing `"Report on annual results.  Summary follows"` with the double
space that the join introduces before the second fragment. -/
theorem sentence_trunc_actual :
    truncate_sentences ("Report on annual results. Summary follows.".data) 25
      = ("Report on annual results.  Summary follows".data) ∧
    (words (pyStrip (splitOnDot
      ("Report on annual results. Summary follows.".data)).headI)).length = 4 := by
  constructor
  · decide
  · decide

/-- C1: for non-empty (after stripping) input text and `max_words ≥ 1`, when
`generate_annotation` succeeds (the model loads and generation returns a
decoded string, so no error sentinel is produced), the returned annotation
has at most `max_words` whitespace-delimited tokens, and exactly
`max_words` tokens whenever the post-processed output before the hard cut
(the cleaned title after sentence truncation and `rstrip`) is longer than
`max_words` tokens. -/
theorem generation_word_bound (env : GenEnv) (text : Str) (mw : Int) (decoded : Str)
    (htext : pyStrip text ≠ [])
    (hmw : 1 ≤ mw)
    (hload : env.load = PyResult.ok ())
    (hgen : env.generate (derive_params mw).1 (derive_params mw).2 (min_length mw)
        (annotation_prompt text mw) = PyResult.ok decoded) :
    ((words ( generate_annotation env text mw)).length : Int) ≤ mw ∧
    (mw < ((words (clean_title (title_of decoded) mw)).length : Int) →
      ((words ( generate_annotation env text mw)).length : Int) = mw) := by
  have hcond : ¬ (text = [] ∨ pyStrip text = []) := by
    rintro (h1 | h2)
    · apply htext
      rw [h1]
      rfl
    · exact htext h2
  have hres : generate_annotation env text mw = postProcess (title_of decoded) mw := by
    simp only [ generate_annotation, if_neg hcond, hload, hgen]
  rw [hres]
  exact wc_postProcess (title_of decoded) mw hmw

/-- Witness for C1: on input text `"hello"` with `max_words = 2` and a model
whose decoded output is `"a b c d"`, the hypotheses hold and the bound
applies. -/
theorem generation_word_bound_witness :
    ((words ( generate_annotation genEnvW ("hello".data) 2)).length : Int) ≤ 2 ∧
    (2 < ((words (clean_title (title_of ("a b c d".data)) 2)).length : Int) →
      ((words ( generate_annotation genEnvW ("hello".data) 2)).length : Int) = 2) :=
  generation_word_bound genEnvW ("hello".data) 2 ("a b c d".data)
    (by decide) (by decide) rfl rfl

/-- C3: for every `max_words` and every model oracle, if the input text is
empty or consists only of whitespace then `generate_annotation` returns the
fixed "no text" sentinel.  The result is the sentinel for every oracle
`env`, including oracles whose load or generation steps raise, so the model
and tokenizer are never consulted: the guard at `main.py` line 135
short-circuits before the load at lines 140-141. -/
theorem empty_text_short_circuit (env : GenEnv) (text : Str) (mw : Int)
    (h : ∀ c ∈ text, isWS c = true) :
    generate_annotation env text mw = noTextMsg := by
  have hstrip : pyStrip text = [] := by
    unfold pyStrip
    rw [List.dropWhile_eq_nil_iff.mpr h]
    rfl
  unfold generate_annotation
  rw [if_pos (Or.inr hstrip)]

/-- Witness for C3: whitespace-only input with `max_words = 35` yields the
sentinel even though the oracle could generate. -/
theorem empty_text_short_circuit_witness :
    generate_annotation genEnvW ("   ".data) 35 = noTextMsg :=
  empty_text_short_circuit genEnvW ("   ".data) 35 (by decide)

/-- C2: for every oracle behaviour and every path, the body of
`extract_text_from_file` evaluates to a returned value, never to a
propagating exception; and for any path whose lower-cased suffix is not a
supported extension the function returns None rather than raising. -/
theorem extract_dispatch_total (env : ExtractEnv) (path : Str) :
    (∃ r : Option Str, extract_text_from_file_body env path = PyResult.ok r) ∧
    (lowerStr (pathSuffix path) ∉ supported_extensions →
      extract_text_from_file env path = none) := by
  constructor
  · unfold extract_text_from_file_body
    dsimp only
    split_ifs <;> exact ⟨_, rfl⟩
  · intro h
    simp only [supported_extensions, List.mem_cons, List.not_mem_nil, or_false,
      not_or] at h
    obtain ⟨h1, h2, h3, h4⟩ := h
    unfold extract_text_from_file extract_text_from_file_body pyTry
    dsimp only
    rw [if_neg h1, if_neg h2, if_neg h3, if_neg h4]

/-- Witness for C2: the unsupported extension `.xyz` yields None, and the
body evaluates to a value. -/
theorem extract_dispatch_total_witness :
    extract_text_from_file extractEnvW ("/a/b.xyz".data) = none ∧
    (∃ r : Option Str,
      extract_text_from_file_body extractEnvW ("/a/b.xyz".data) = PyResult.ok r) :=
  ⟨(extract_dispatch_total extractEnvW ("/a/b.xyz".data)).2 (by decide),
   (extract_dispatch_total extractEnvW ("/a/b.xyz".data)).1⟩

/-- C7: whenever the file bytes fail to decode as UTF-8 (the only encoding
tried before cp1251 in the fixed list) but decode under cp1251, the TXT
extractor returns the cp1251 decoding. -/
theorem txt_cp1251_fallback (env : TxtEnv) (t : Str)
    (hr : env.readable = true)
    (hu : env.decode TxtEncoding.utf8 = none)
    (hc : env.decode TxtEncoding.cp1251 = some t) :
    extract_text_from_txt env = some t := by
  simp [extract_text_from_txt, extract_text_from_txt_body, pyTry, txt_encodings,
    firstDecode, hr, hu, hc]

/-- Witness for C7: a file decodable only by cp1251 yields the cp1251
text. -/
theorem txt_cp1251_fallback_witness :
    extract_text_from_txt txtEnvW = some ("Отчёт".data) :=
  txt_cp1251_fallback txtEnvW ("Отчёт".data) rfl rfl rfl

/-- C9: code bug in the LibreOffice fallback of the DOC extractor.  The
conversion writes its output into the temporary directory (here
`/tmp/report.txt`), but lines 135-141 read and delete
`doc_path.replace('.doc', '.txt')` (here `/docs/report.txt`, next to the
source file), so the converted output is never read: with the converted
file present at its temporary location the extractor still returns None,
contradicting both the specification and the code's own comment about
deleting the temporary file. -/
theorem doc_converted_output_not_read :
    docBugEnv.fs (libreConvertTarget ("/tmp".data) ("/docs/report.doc".data))
      = some ("Converted report text".data) ∧
    extract_text_from_doc docBugEnv ("/docs/report.doc".data) = none := by
  constructor
  · decide
  · decide

/-- C10: when every globbed file fails to produce a truthy title (so the
results list is empty), `process_folder` writes no output file regardless
of the output path argument, and still returns the empty results list. -/
theorem no_write_when_empty_results (envOf : Str → TitleEnv) (listing : List Str)
    (now : Str) (out : Option Str)
    (h : ∀ f ∈ globFiles listing,
      pyTruthyOpt (generate_title_from_file (envOf f) f) = false) :
    process_folder envOf listing now out = ([], none) := by
  have hres : (globFiles listing).filterMap (record_of envOf now) = [] := by
    apply List.filterMap_eq_nil_iff.mpr
    intro f hf
    have hft := h f hf
    unfold record_of
    cases hgen : generate_title_from_file (envOf f) f with
    | none => rfl
    | some t =>
      rw [hgen] at hft
      simp only [pyTruthyOpt, Bool.not_eq_false'] at hft
      have ht : t = [] := List.isEmpty_iff.mp hft
      subst ht
      rfl
  simp only [process_folder, hres]
  cases out with
  | none => rfl
  | some fname => simp

/-- Witness for C10: a folder with one unreadable TXT file and an output
path produces no write effect and an empty results list. -/
theorem no_write_when_empty_results_witness :
    process_folder (fun _ => titleEnvFailW) [("/d/a.txt".data)] ("ts".data)
      (some ("out.json".data)) = ([], none) :=
  no_write_when_empty_results (fun _ => titleEnvFailW) [("/d/a.txt".data)]
    ("ts".data) (some ("out.json".data)) (by decide)

theorem not_suffix_of_suffix (a b f : Str) (ha : a <:+ f)
    (h1 : ¬ a <:+ b) (h2 : ¬ b <:+ a) : ¬ b <:+ f := by
  intro hb
  rcases List.suffix_or_suffix_of_suffix ha hb with h | h
  · exact h1 h
  · exact h2 h

/-- C8: a folder listing with exactly one TXT file that processes to a
truthy title and one PDF file whose parser raises (a corrupt or unreadable
PDF) produces a results list with exactly one record, the TXT record; the
failed PDF contributes no entry of any kind. -/
theorem folder_one_txt_one_bad_pdf (envOf : Str → TitleEnv)
    (txtF pdfF now t m : Str)
    (h1 : (".txt".data) <:+ txtF)
    (h2 : (".pdf".data) <:+ pdfF)
    (h3 : lowerStr (pathSuffix pdfF) = (".pdf".data))
    (h4 : generate_title_from_file (envOf txtF) txtF = some t)
    (h5 : t ≠ [])
    (h6 : (envOf pdfF).extract.pdf = PyResult.exc m) :
    (process_folder envOf [txtF, pdfF] now none).1 =
      [{ filename := pyBasename txtF, title := t, path := txtF,
         processed_at := now, word_count := (words t).length }] := by
  have p1 : (['.', 't', 'x', 't'] : Str) <:+ txtF := h1
  have p2 : (['.', 'p', 'd', 'f'] : Str) <:+ pdfF := h2
  have n1 : ¬ (['.', 'p', 'd', 'f'] : Str) <:+ txtF :=
    not_suffix_of_suffix _ _ _ h1 (by decide) (by decide)
  have n2 : ¬ (['.', 'P', 'D', 'F'] : Str) <:+ txtF :=
    not_suffix_of_suffix _ _ _ h1 (by decide) (by decide)
  have n3 : ¬ (['.', 'd', 'o', 'c', 'x'] : Str) <:+ txtF :=
    not_suffix_of_suffix _ _ _ h1 (by decide) (by decide)
  have n4 : ¬ (['.', 'D', 'O', 'C', 'X'] : Str) <:+ txtF :=
    not_suffix_of_suffix _ _ _ h1 (by decide) (by decide)
  have n5 : ¬ (['.', 'd', 'o', 'c'] : Str) <:+ txtF :=
    not_suffix_of_suffix _ _ _ h1 (by decide) (by decide)
  have n6 : ¬ (['.', 'D', 'O', 'C'] : Str) <:+ txtF :=
    not_suffix_of_suffix _ _ _ h1 (by decide) (by decide)
  have n7 : ¬ (['.', 'T', 'X', 'T'] : Str) <:+ txtF :=
    not_suffix_of_suffix _ _ _ h1 (by decide) (by decide)
  have m1 : ¬ (['.', 'P', 'D', 'F'] : Str) <:+ pdfF :=
    not_suffix_of_suffix _ _ _ h2 (by decide) (by decide)
  have m2 : ¬ (['.', 'd', 'o', 'c', 'x'] : Str) <:+ pdfF :=
    not_suffix_of_suffix _ _ _ h2 (by decide) (by decide)
  have m3 : ¬ (['.', 'D', 'O', 'C', 'X'] : Str) <:+ pdfF :=
    not_suffix_of_suffix _ _ _ h2 (by decide) (by decide)
  have m4 : ¬ (['.', 'd', 'o', 'c'] : Str) <:+ pdfF :=
    not_suffix_of_suffix _ _ _ h2 (by decide) (by decide)
  have m5 : ¬ (['.', 'D', 'O', 'C'] : Str) <:+ pdfF :=
    not_suffix_of_suffix _ _ _ h2 (by decide) (by decide)
  have m6 : ¬ (['.', 't', 'x', 't'] : Str) <:+ pdfF :=
    not_suffix_of_suffix _ _ _ h2 (by decide) (by decide)
  have m7 : ¬ (['.', 'T', 'X', 'T'] : Str) <:+ pdfF :=
    not_suffix_of_suffix _ _ _ h2 (by decide) (by decide)
  have hglob : globFiles [txtF, pdfF] = [pdfF, txtF] := by
    simp [globFiles, supported_extensions, upperStr, List.filter_cons,
      p1, p2, n1, n2, n3, n4, n5, n6, n7, m1, m2, m3, m4, m5, m6, m7]
  have hpdf : record_of envOf now pdfF = none := by
    unfold record_of generate_title_from_file extract_text_from_file
      extract_text_from_file_body
    dsimp only
    rw [h3, if_pos rfl, h6]
    rfl
  have htxt : record_of envOf now txtF =
      some { filename := pyBasename txtF, title := t, path := txtF,
             processed_at := now, word_count := (words t).length } := by
    unfold record_of
    rw [h4]
    dsimp only
    rw [if_neg h5]
  simp only [process_folder, hglob, List.filterMap_cons, hpdf, htxt,
    List.filterMap_nil]

/-- Witness for C8: the concrete folder `["/d/a.txt", "/d/b.pdf"]` with a
working TXT and a raising PDF yields exactly the TXT record. -/
theorem folder_one_txt_one_bad_pdf_witness :
    (process_folder envOfW [("/d/a.txt".data), ("/d/b.pdf".data)] ("ts".data) none).1 =
      [{ filename := pyBasename ("/d/a.txt".data),
         title := ("Доклад о результатах".data),
         path := ("/d/a.txt".data), processed_at := ("ts".data),
         word_count := (words ("Доклад о результатах".data)).length }] :=
  folder_one_txt_one_bad_pdf envOfW ("/d/a.txt".data) ("/d/b.pdf".data)
    ("ts".data) ("Доклад о результатах".data) ("bad pdf".data)
    (by decide) (by decide) (by decide) (by decide) (by decide) rfl
